import Mathlib

/-!
Verification development for the task-orchestration core of the
`autonomous_engineering_agent` repository (files
`core/planner.py` and `core/agent.py`), shallowly embedded in Lean.

Python floats appearing as review scores are modelled as rationals (ℚ);
Python `datetime` timestamps are modelled as natural numbers; Python
`dict`s (which preserve insertion order and replace in place on key
reassignment) are modelled as association lists with a `dictSet`
operation mirroring `d[k] = v`; Python `set`s of task ids are modelled
as duplicate-free lists of ids (a Python set is unordered, so any
iteration order is a sound determinization; membership is the semantic
content, and deduplication is applied where Python's `set(...)` would).
-/

namespace AEA

/-- `planner.py` `TaskStatus` enum. -/
inductive TaskStatus where
  | pending
  | in_progress
  | completed
  | failed
  | blocked
deriving DecidableEq

/-- `TaskStatus.value` (the string payload of the Python enum). -/
def TaskStatus.value : TaskStatus → String
  | .pending => "pending"
  | .in_progress => "in_progress"
  | .completed => "completed"
  | .failed => "failed"
  | .blocked => "blocked"

/-- `planner.py` `TaskPriority` enum. -/
inductive TaskPriority where
  | low
  | medium
  | high
  | critical
deriving DecidableEq

/-- `TaskPriority.value` (the int payload of the Python enum). -/
def TaskPriority.value : TaskPriority → Nat
  | .low => 1
  | .medium => 2
  | .high => 3
  | .critical => 4

/-- `TaskPriority[name]`: Python enum lookup by member name; a name that
is not a member raises `KeyError`, modelled by `none`. -/
def TaskPriority.fromName : String → Option TaskPriority
  | "LOW" => some .low
  | "MEDIUM" => some .medium
  | "HIGH" => some .high
  | "CRITICAL" => some .critical
  | _ => none

/-- The task `metadata` dict.  The core reads a fixed collection of keys
from it, each via `metadata.get(key, default)`; a missing key is `none`
and the read-site default is applied by the getter functions below. -/
structure Metadata where
  requirements : Option String := none
  analysis_type : Option String := none
  requires_code : Option Bool := none
  system_type : Option String := none
  parameters : Option String := none
  requires_optimization : Option Bool := none
  objective : Option String := none
  constraints : Option (List String) := none
  variables' : Option (List String) := none
  bounds : Option String := none
deriving DecidableEq

/-- `planner.py` `Task` dataclass.  `dependencies` is a Python `Set[str]`,
modelled as a duplicate-free list of ids; timestamps are `Nat`. -/
structure Task where
  id : String
  title : String
  description : String
  status : TaskStatus
  priority : TaskPriority
  dependencies : List String
  created_at : Nat
  updated_at : Nat
  metadata : Metadata
deriving DecidableEq

/-- External (dictionary) representation of a task as produced by
`Task.to_dict` (`planner.py:44-56`): `status`/`priority` become their enum
payloads, the dependency set becomes a list, timestamps are serialized. -/
structure TaskDict where
  id : String
  title : String
  description : String
  status : String
  priority : Nat
  dependencies : List String
  created_at : Nat
  updated_at : Nat
  metadata : Metadata
deriving DecidableEq

/-- `Task.to_dict` (`planner.py:44-56`).  `list(self.dependencies)`
enumerates the set; in the model the set is already carried as a list. -/
def Task.to_dict (t : Task) : TaskDict :=
  { id := t.id
    title := t.title
    description := t.description
    status := t.status.value
    priority := t.priority.value
    dependencies := t.dependencies
    created_at := t.created_at
    updated_at := t.updated_at
    metadata := t.metadata }

/-- Inverse of `TaskStatus.value`. -/
def TaskStatus.fromValue : String → Option TaskStatus
  | "pending" => some .pending
  | "in_progress" => some .in_progress
  | "completed" => some .completed
  | "failed" => some .failed
  | "blocked" => some .blocked
  | _ => none

/-- Inverse of `TaskPriority.value`. -/
def TaskPriority.fromValue : Nat → Option TaskPriority
  | 1 => some .low
  | 2 => some .medium
  | 3 => some .high
  | 4 => some .critical
  | _ => none

/-- Modelled from the spec: the repository defines `Task.to_dict` but no
inverse conversion; the spec's idempotent-serialization property speaks of
"converting that representation back to a task".  This is the evident
inverse: decode the status and priority payloads and rebuild the
dependency set (`set(...)`) from the serialized list. -/
def Task.from_dict (d : TaskDict) : Option Task :=
  match TaskStatus.fromValue d.status, TaskPriority.fromValue d.priority with
  | some st, some pr =>
      some { id := d.id
             title := d.title
             description := d.description
             status := st
             priority := pr
             dependencies := d.dependencies.dedup
             created_at := d.created_at
             updated_at := d.updated_at
             metadata := d.metadata }
  | _, _ => none

/-! ### Python dict model -/

/-- Insertion-ordered association list modelling a Python `dict`. -/
abbrev PyDict (α : Type) := List (String × α)

/-- `d[k] = v` on a Python dict: replace in place when the key exists
(keeping its insertion position), otherwise append. -/
def dictSet {α : Type} : PyDict α → String → α → PyDict α
  | [], k, v => [(k, v)]
  | (k', v') :: d, k, v =>
      if k' == k then (k, v) :: d else (k', v') :: dictSet d k v

/-- `k in d` / `d.get(k)` on a Python dict. -/
def dictGet {α : Type} (d : PyDict α) (k : String) : Option α :=
  d.lookup k

/-- `ProjectPlanner` mutable state: `self.tasks` and `self.title_to_id`
(`planner.py:65-66`). -/
structure PlannerState where
  tasks : PyDict Task := []
  title_to_id : PyDict String := []
deriving DecidableEq

/-- The initial planner state (`ProjectPlanner.__init__`). -/
def PlannerState.init : PlannerState := {}

/-- `ProjectPlanner.update_task_status` (`planner.py:196-205`): update
status and `updated_at` when the id is present, otherwise only warn. -/
def update_task_status (st : PlannerState) (task_id : String)
    (status : TaskStatus) (now : Nat) : PlannerState :=
  match dictGet st.tasks task_id with
  | some t =>
      { st with tasks := dictSet st.tasks task_id
                  { t with status := status, updated_at := now } }
  | none => st

/-! ### `ProjectPlanner.create_project_plan` (`planner.py:69-173`) -/

/-- One entry of the JSON task array parsed from the planner LLM response.
A field is `none` when the corresponding key is absent from the JSON
object (`task_data["title"]` etc. then raises `KeyError`); the `priority`
field carries the raw member name handed to `TaskPriority[...]`. -/
structure TaskEntry where
  title : Option String := none
  description : Option String := none
  priority : Option String := none
  dependencies : Option (List String) := none
  metadata : Metadata := {}
deriving DecidableEq

/-- Fate of extracting and parsing the JSON array from the LLM response
text (`planner.py:100-116`): either no array is found / `json.loads`
raises, or a list of entries is obtained. -/
inductive ParseOutcome where
  | failure
  | entries (es : List TaskEntry)
deriving DecidableEq

/-- The fresh id `task_{len(self.tasks)}` (`planner.py:121`). -/
def planTaskId (st : PlannerState) : String :=
  let n := st.tasks.length
  s!"task_{n}"

/-- Store one freshly created plan task and register its title
(`planner.py:123-136`). -/
def addPlanTask (st : PlannerState) (ti de : String) (pr : TaskPriority)
    (em : Metadata) (now : Nat) : PlannerState :=
  let tid := planTaskId st
  let task : Task :=
    { id := tid, title := ti, description := de,
      status := .pending, priority := pr, dependencies := [],
      created_at := now, updated_at := now, metadata := em }
  { tasks := dictSet st.tasks tid task,
    title_to_id := dictSet st.title_to_id ti tid }

/-- First pass of plan creation (`planner.py:118-137`): create one task per
entry with empty dependencies, id `task_{len(self.tasks)}`, registering it
in `tasks` and `title_to_id`.  A malformed entry (missing `title`,
`description` or `priority` key, or an invalid priority name) raises
inside the `try` block; the state mutations already performed persist.
Returns the (possibly partial) state, the created ids in order, and
whether the pass completed without raising. -/
def firstPass (now : Nat) :
    PlannerState → List TaskEntry → PlannerState × List String × Bool
  | st, [] => (st, [], true)
  | st, e :: rest =>
    match e.title, e.description, e.priority with
    | some ti, some de, some pn =>
      match TaskPriority.fromName pn with
      | some pr =>
          let tid := planTaskId st
          let st' := addPlanTask st ti de pr e.metadata now
          let (st'', ids, ok) := firstPass now st' rest
          (st'', tid :: ids, ok)
      | none => (st, [], false)
    | _, _, _ => (st, [], false)

/-- Second pass of plan creation (`planner.py:139-150`): for every entry
that has a `dependencies` key, resolve each dependency title through
`title_to_id` (dropping unknown titles with a warning) and overwrite the
task's dependency set with the resolved ids. -/
def secondPass : PlannerState → List (TaskEntry × String) → PlannerState
  | st, [] => st
  | st, (e, tid) :: rest =>
    match e.dependencies with
    | some deps =>
        let depIds : List String :=
          (deps.filterMap (fun dt => dictGet st.title_to_id dt)).dedup
        let st' : PlannerState :=
          { st with tasks :=
              match dictGet st.tasks tid with
              | some t => dictSet st.tasks tid { t with dependencies := depIds }
              | none => st.tasks }
        secondPass st' rest
    | none => secondPass st rest

/-- The single default fallback task (`planner.py:159-169`). -/
def defaultTask (objective : String) (now : Nat) : Task :=
  { id := "task_0", title := "Main Task", description := objective,
    status := .pending, priority := .high, dependencies := [],
    created_at := now, updated_at := now, metadata := {} }

/-- The `except` branch of plan creation (`planner.py:155-173`): store the
default task (a plain `self.tasks[...] = ...` assignment, replacing any
existing task with id `task_0`) and return it as the whole plan. -/
def fallbackPlan (st : PlannerState) (objective : String) (now : Nat) :
    PlannerState × List Task :=
  let d := defaultTask objective now
  ({ tasks := dictSet st.tasks d.id d,
     title_to_id := dictSet st.title_to_id d.title d.id }, [d])

/-- `ProjectPlanner.create_project_plan` (`planner.py:69-173`), with the
LLM call and the JSON extraction/parse abstracted into a `ParseOutcome`
supplied by the collaborator.  An `Except.error` models the
`ollama_client.generate` call itself raising (`planner.py:97`, outside the
`try`); every parse-level failure is recovered via the fallback plan. -/
def create_project_plan (st : PlannerState)
    (planOut : Except String ParseOutcome) (objective : String) (now : Nat) :
    Except String (PlannerState × List Task) :=
  match planOut with
  | .error e => .error e
  | .ok .failure => .ok (fallbackPlan st objective now)
  | .ok (.entries es) =>
      let (st1, ids, ok) := firstPass now st es
      if ok then
        let st2 := secondPass st1 (es.zip ids)
        .ok (st2, ids.filterMap (fun tid => dictGet st2.tasks tid))
      else
        .ok (fallbackPlan st1 objective now)

/-! ### Scheduler: `get_next_tasks` / `get_blocked_tasks`
(`planner.py:175-194`, `planner.py:222-237`) -/

/-- The generator `all(self.tasks[dep_id].status == TaskStatus.COMPLETED
for dep_id in task.dependencies)` (`planner.py:182-185`).  `all` stops at
the first `False`, so a missing id (an uncaught `KeyError`, modelled by
`none`) only surfaces when every earlier dependency in the iteration order
was `Completed`. -/
def depsCompleted (tasks : PyDict Task) : List String → Option Bool
  | [] => some true
  | d :: ds =>
    match dictGet tasks d with
    | none => none
    | some t =>
        if t.status = .completed then depsCompleted tasks ds else some false

/-- Filtering stage of `get_next_tasks` (`planner.py:178-189`): keep, in
graph iteration (insertion) order, the `Pending` tasks all of whose
dependencies are `Completed`; `none` models an uncaught `KeyError`. -/
def collectReady (tasks : PyDict Task) : List Task → Option (List Task)
  | [] => some []
  | t :: ts =>
    if t.status = .pending then
      match depsCompleted tasks t.dependencies with
      | none => none
      | some true => (collectReady tasks ts).map (fun l => t :: l)
      | some false => collectReady tasks ts
    else
      collectReady tasks ts

/-- Insert a task into a list sorted by priority value descending, placing
it before the first element whose priority is not strictly greater; with
`sortDesc` this realizes exactly the specification of Python's stable
`sorted(ready_tasks, key=lambda t: t.priority.value, reverse=True)`
(`planner.py:192`): descending by key, equal keys in original order. -/
def insertDesc (t : Task) : List Task → List Task
  | [] => [t]
  | h :: r =>
      if t.priority.value < h.priority.value then h :: insertDesc t r
      else t :: h :: r

/-- Stable descending insertion sort by priority value. -/
def sortDesc : List Task → List Task
  | [] => []
  | x :: xs => insertDesc x (sortDesc xs)

/-- `ProjectPlanner.get_next_tasks` (`planner.py:175-194`). -/
def get_next_tasks (st : PlannerState) : Option (List Task) :=
  (collectReady st.tasks (st.tasks.map Prod.snd)).map sortDesc

/-- The generator `any(self.tasks[dep_id].status != TaskStatus.COMPLETED
for dep_id in task.dependencies)` (`planner.py:229-232`); `any` stops at
the first `True`, so a missing id raises only if every earlier dependency
was `Completed`. -/
def anyDepNotCompleted (tasks : PyDict Task) : List String → Option Bool
  | [] => some false
  | d :: ds =>
    match dictGet tasks d with
    | none => none
    | some t =>
        if t.status = .completed then anyDepNotCompleted tasks ds
        else some true

/-- Filtering loop of `get_blocked_tasks` (`planner.py:226-234`). -/
def collectBlocked (tasks : PyDict Task) : List Task → Option (List Task)
  | [] => some []
  | t :: ts =>
    if t.status = .pending then
      match anyDepNotCompleted tasks t.dependencies with
      | none => none
      | some true => (collectBlocked tasks ts).map (fun l => t :: l)
      | some false => collectBlocked tasks ts
    else
      collectBlocked tasks ts

/-- `ProjectPlanner.get_blocked_tasks` (`planner.py:222-237`). -/
def get_blocked_tasks (st : PlannerState) : Option (List Task) :=
  collectBlocked st.tasks (st.tasks.map Prod.snd)

/-! ### `EngineeringAgent` (`agent.py`)

External collaborators (reasoner, executor, critique engine, memory,
LLM client) are injected as functions; `Except.error e` models the
collaborator raising an exception with message `e`. -/

/-- Metadata reads performed by the agent, each mirroring a
`metadata.get(key, default)` call site. -/
def Metadata.getAnalysisType (m : Metadata) : String := m.analysis_type.getD "general"

/-- `metadata.get("requires_code", False)` (`agent.py:222`). -/
def Metadata.getRequiresCode (m : Metadata) : Bool := m.requires_code.getD false

/-- `metadata.get("system_type", "general")` (`agent.py:225`). -/
def Metadata.getSystemType (m : Metadata) : String := m.system_type.getD "general"

/-- `metadata.get("parameters", {})` (`agent.py:226`); the opaque
parameter dict is modelled as a string, the empty dict as `""`. -/
def Metadata.getParameters (m : Metadata) : String := m.parameters.getD ""

/-- `metadata.get("requires_optimization", False)` (`agent.py:247`). -/
def Metadata.getRequiresOptimization (m : Metadata) : Bool :=
  m.requires_optimization.getD false

/-- `metadata.get("objective", "")` (`agent.py:250`). -/
def Metadata.getObjective (m : Metadata) : String := m.objective.getD ""

/-- `metadata.get("constraints", [])` (`agent.py:251`). -/
def Metadata.getConstraints (m : Metadata) : List String := m.constraints.getD []

/-- `metadata.get("variables", [])` (`agent.py:252`). -/
def Metadata.getVariables (m : Metadata) : List String := m.variables'.getD []

/-- `metadata.get("requirements", {})` (`agent.py:142`, `agent.py:262`);
the opaque requirement dict is modelled as a string, the empty dict as
`""`. -/
def Metadata.getRequirements (m : Metadata) : String := m.requirements.getD ""

/-- The dict returned by the critique collaborator's `review_solution`.
The agent reads it only via `review.get("overall_score", 0)` and
`review.get("improvement_suggestions", [])`, so a missing key is `none`
and the defaults are applied by `Review.score` / `Review.suggestions`. -/
structure Review where
  overall_score : Option ℚ := none
  improvement_suggestions : Option (List String) := none
deriving DecidableEq

/-- `review.get("overall_score", 0)`. -/
def Review.score (r : Review) : ℚ := r.overall_score.getD 0

/-- `review.get("improvement_suggestions", [])`. -/
def Review.suggestions (r : Review) : List String :=
  r.improvement_suggestions.getD []

/-- The analysis dict produced by the reasoner: an opaque payload, plus
the `code_result` / `optimization_result` keys the orchestrator may merge
in (`agent.py:243`, `agent.py:255`). -/
structure Analysis where
  base : String
  code_result : Option String := none
  optimization_result : Option String := none
deriving DecidableEq

/-- The result dict built by `_execute_single_task`: `{"analysis": ...,
"review": ...}` on the normal path (`agent.py:275-278`) and
`{"error": ..., "analysis": {}, "review": ...}` on the exception path
(`agent.py:286-293`). -/
structure TaskResult where
  error : Option String := none
  analysis : Analysis
  review : Review
deriving DecidableEq

/-- Argument passed to `critique_engine.review_solution`: the orchestrator
passes the analysis dict (`agent.py:260`), the attempt controller passes
the whole result dict (`agent.py:140`). -/
inductive ReviewArg where
  | ofAnalysis (analysis : Analysis) (requirements : String)
  | ofResult (result : TaskResult) (requirements : String)
deriving DecidableEq

/-- Injected external collaborators. -/
structure Collab where
  plan : String → Except String ParseOutcome
  analyze_system : String → String → Except String String
  generate_simulation_code : String → String → Except String String
  validate_code : String → Except String (Bool × String)
  execute_code : String → Except String (Bool × String × String)
  optimize_design : String → List String → List String → Option String →
    Except String String
  review_solution : ReviewArg → Except String Review
  add_to_short_term : String → Except String Unit
  generate_revision : String → List String → Except String (Option String)

/-! #### The Python value model used for the controller's success check -/

/-- Minimal model of a Python value, used where the source performs raw
dict lookups on heterogeneous dicts. -/
inductive PyVal where
  | num (q : ℚ)
  | str (s : String)
  | list (items : List PyVal)
  | dict (entries : List (String × PyVal))
  | none_

/-- `v.get(k, dflt)` on a Python dict value. -/
def pyDictGetD (v : PyVal) (k : String) (dflt : PyVal) : PyVal :=
  match v with
  | .dict es => (es.lookup k).getD dflt
  | _ => dflt

/-- The review dict as a Python value (keys present iff set). -/
def Review.toPy (r : Review) : PyVal :=
  .dict ((match r.overall_score with
          | some q => [("overall_score", .num q)]
          | none => []) ++
         (match r.improvement_suggestions with
          | some l => [("improvement_suggestions", .list (l.map .str))]
          | none => []))

/-- The analysis dict as a Python value. -/
def Analysis.toPy (a : Analysis) : PyVal :=
  .dict ([("data", .str a.base)] ++
         (match a.code_result with
          | some s => [("code_result", .str s)]
          | none => []) ++
         (match a.optimization_result with
          | some s => [("optimization_result", .str s)]
          | none => []))

/-- The result dict as a Python value, with exactly the top-level keys the
source constructs at `agent.py:275-278` and `agent.py:286-293`. -/
def TaskResult.toPy (r : TaskResult) : PyVal :=
  .dict ((match r.error with
          | some e => [("error", .str e)]
          | none => []) ++
         [("analysis", r.analysis.toPy), ("review", r.review.toPy)])

/-- Python `v >= q` for a value expected to be numeric. -/
def pyGeQ (v : PyVal) (q : ℚ) : Bool :=
  match v with
  | .num x => decide (q ≤ x)
  | _ => false

/-- The controller's success check
`all(r.get("overall_score", 0) >= 0.7 for r in results)` (`agent.py:176`),
performed on the raw result dicts. -/
def allPassed (results : List TaskResult) : Bool :=
  results.all (fun r => pyGeQ (pyDictGetD r.toPy "overall_score" (.num 0)) (mkRat 7 10))

/-! #### `EngineeringAgent._execute_single_task` (`agent.py:201-293`) -/

/-- The status update at `agent.py:266-272`: `Completed` when
`review.get("overall_score", 0) >= 0.8`, `Failed` otherwise. -/
def orchestratorStatusUpdate (st : PlannerState) (task_id : String)
    (rv : Review) (now : Nat) : PlannerState :=
  if mkRat 8 10 ≤ rv.score then update_task_status st task_id .completed now
  else update_task_status st task_id .failed now

/-- The conditional code path (`agent.py:222-244`): generate, validate and
execute simulation code, merging the execution result into the analysis;
an invalid or failing run raises (`agent.py:235`, `agent.py:241`). -/
def codeStep (c : Collab) (task : Task) (a : Analysis) :
    Except String Analysis :=
  if task.metadata.getRequiresCode then
    match c.generate_simulation_code task.metadata.getSystemType
        task.metadata.getParameters with
    | .error e => .error e
    | .ok code =>
      match c.validate_code code with
      | .error e => .error e
      | .ok (is_valid, issues) =>
        if is_valid then
          match c.execute_code code with
          | .error e => .error e
          | .ok (success, output, result) =>
            if success then .ok { a with code_result := some result }
            else .error s!"Code execution failed: {output}"
        else .error s!"Generated code is invalid: {issues}"
  else .ok a

/-- The conditional optimization path (`agent.py:247-256`). -/
def optStep (c : Collab) (task : Task) (a : Analysis) :
    Except String Analysis :=
  if task.metadata.getRequiresOptimization then
    match c.optimize_design task.metadata.getObjective
        task.metadata.getConstraints task.metadata.getVariables
        task.metadata.bounds with
    | .error e => .error e
    | .ok o => .ok { a with optimization_result := some o }
  else .ok a

/-- The `try` block of `_execute_single_task` (`agent.py:212-281`):
analyze, optional code path, optional optimization path, review, status
update at the 0.8 threshold, and the combined result dict. -/
def execSingleBody (c : Collab) (st : PlannerState) (task : Task)
    (now : Nat) : Except String (PlannerState × TaskResult) :=
  match c.analyze_system task.description task.metadata.getAnalysisType with
  | .error e => .error e
  | .ok base =>
    match codeStep c task { base := base } with
    | .error e => .error e
    | .ok a1 =>
      match optStep c task a1 with
      | .error e => .error e
      | .ok a2 =>
        match c.review_solution (.ofAnalysis a2 task.metadata.getRequirements) with
        | .error e => .error e
        | .ok rv =>
            .ok (orchestratorStatusUpdate st task.id rv now,
                 { error := none, analysis := a2, review := rv })

/-- `EngineeringAgent._execute_single_task` (`agent.py:201-293`): the
`except` branch (`agent.py:283-293`) marks the task `Failed` and returns
the synthetic zero-score outcome; state mutations performed before the
exception persist only insofar as the source performed them (the sole
mutation inside the `try` is the final status update, which the exception
path never reaches). -/
def execute_single_task (c : Collab) (st : PlannerState) (task : Task)
    (now : Nat) : PlannerState × TaskResult :=
  match execSingleBody c st task now with
  | .ok r => r
  | .error e =>
      (update_task_status st task.id .failed now,
       { error := some e, analysis := { base := "" },
         review := { overall_score := some 0,
                     improvement_suggestions := some [s!"Task failed: {e}"] } })

/-! #### `EngineeringAgent.execute_task` (`agent.py:74-199`) -/

/-- `max_attempts = 3` (`agent.py:84`). -/
def maxAttempts : Nat := 3

/-- One entry of `previous_attempts` (`agent.py:154-159`). -/
structure AttemptRecord where
  attempt : Nat
  result : TaskResult
  review : Review
  improvement_suggestions : List String
deriving DecidableEq

/-- Ghost instrumentation: one record per task handed to
`_execute_single_task`, with the graph as it stood at dispatch time. -/
structure DispatchEvent where
  taskId : String
  deps : List String
  graphAtDispatch : PyDict Task
deriving DecidableEq

/-- The local mutable state of the attempt loop body: the planner, the
(revisable) objective text, `previous_attempts`, the per-attempt
`results` list, and the ghost dispatch trace. -/
structure LoopState where
  planner : PlannerState
  task_input : String
  previous_attempts : List AttemptRecord
  results : List TaskResult
  trace : List DispatchEvent
  allResults : List TaskResult

/-- The status update at `agent.py:146-151`: `Completed` when
`review.get("overall_score", 0) >= 0.7`, `Failed` otherwise. -/
def controllerStatusUpdate (st : PlannerState) (task_id : String)
    (rv : Review) (now : Nat) : PlannerState :=
  if mkRat 7 10 ≤ rv.score then update_task_status st task_id .completed now
  else update_task_status st task_id .failed now

/-- The `for task in tasks` loop of `execute_task` (`agent.py:124-173`).
Returns the final loop state and `some e` when an exception escaped the
loop body (to be caught by the attempt-level handler); `none` means the
loop ran to completion or exited via `break`.  Note the source's
`continue` at `agent.py:173` continues the `for` loop (the next task), not
the attempt loop. -/
def runTasks (c : Collab) (attempt : Nat) (now : Nat) :
    LoopState → List Task → LoopState × Option String
  | ls, [] => (ls, none)
  | ls, task :: rest =>
    let ev : DispatchEvent := ⟨task.id, task.dependencies, ls.planner.tasks⟩
    let (st', result) := execute_single_task c ls.planner task now
    let ls1 : LoopState :=
      { ls with planner := st', results := ls.results ++ [result],
                trace := ls.trace ++ [ev],
                allResults := ls.allResults ++ [result] }
    match c.add_to_short_term task.id with
    | .error e => (ls1, some e)
    | .ok _ =>
      match c.review_solution (.ofResult result task.metadata.getRequirements) with
      | .error e => (ls1, some e)
      | .ok review =>
        let ls2 : LoopState :=
          { ls1 with planner := controllerStatusUpdate ls1.planner task.id review now }
        if mkRat 7 10 ≤ review.score then
          runTasks c attempt now ls2 rest
        else
          let ls3 : LoopState :=
            { ls2 with previous_attempts := ls2.previous_attempts ++
                [⟨attempt, result, review, review.suggestions⟩] }
          if attempt = maxAttempts then (ls3, none)
          else if review.suggestions ≠ [] then
            match c.generate_revision ls3.task_input review.suggestions with
            | .error e => (ls3, some e)
            | .ok resp =>
                runTasks c attempt now
                  { ls3 with task_input := resp.getD ls3.task_input } rest
          else runTasks c attempt now ls3 rest

/-- Ghost instrumentation accumulated across the whole `execute_task`
call: the dispatch trace and the number of planner decompositions. -/
structure Instr where
  trace : List DispatchEvent := []
  planCalls : Nat := 0
  allResults : List TaskResult := []

/-- The three result shapes of `execute_task`: `agent.py:178-182`
(success), `agent.py:187-191` (error at the last attempt), and
`agent.py:194-199` (attempts exhausted). -/
inductive ExecOutcome where
  | success (results : List TaskResult) (attempts : Nat)
  | error (msg : String) (attempts : Nat)
  | exhausted (attempts : Nat) (previous_attempts : List AttemptRecord)
deriving DecidableEq

/-- The `while attempt < max_attempts` loop of `execute_task`
(`agent.py:88-199`), structured on the number of remaining attempts.
Each iteration invokes the planner's decomposition once, runs the task
loop, and applies the success check `allPassed`; an exception is caught
at `agent.py:184-192`. -/
def attemptLoop (c : Collab) (now : Nat) :
    Nat → Nat → PlannerState → String → List AttemptRecord → Instr →
    ExecOutcome × PlannerState × Instr
  | 0, _, st, _, prev, instr => (.exhausted maxAttempts prev, st, instr)
  | remaining+1, attempt, st, input, prev, instr =>
    let attempt' := attempt + 1
    let instr1 : Instr := { instr with planCalls := instr.planCalls + 1 }
    match create_project_plan st (c.plan input) input now with
    | .error e =>
        if attempt' = maxAttempts then (.error e attempt', st, instr1)
        else attemptLoop c now remaining attempt' st input prev instr1
    | .ok (st1, tasks) =>
        let (ls, exc) :=
          runTasks c attempt' now
            ⟨st1, input, prev, [], instr1.trace, instr1.allResults⟩ tasks
        let instr2 : Instr :=
          { instr1 with trace := ls.trace, allResults := ls.allResults }
        match exc with
        | some e =>
            if attempt' = maxAttempts then (.error e attempt', ls.planner, instr2)
            else attemptLoop c now remaining attempt' ls.planner ls.task_input
                   ls.previous_attempts instr2
        | none =>
            if allPassed ls.results then
              (.success ls.results attempt', ls.planner, instr2)
            else attemptLoop c now remaining attempt' ls.planner ls.task_input
                   ls.previous_attempts instr2

/-- `EngineeringAgent.execute_task` (`agent.py:74-199`).  (The `Task`
object built at `agent.py:96-113` is dead: the name `task` is rebound by
the `for` loop before any use, so the model omits its construction.) -/
def execute_task (c : Collab) (task_input : String) (now : Nat)
    (st : PlannerState) : ExecOutcome × PlannerState × Instr :=
  attemptLoop c now maxAttempts 0 st task_input [] {}

/-! ## Lemmas about the dict model -/

theorem dictGet_dictSet_self {α : Type} (d : PyDict α) (k : String) (v : α) :
    dictGet (dictSet d k v) k = some v := by
  induction d with
  | nil => simp [dictSet, dictGet, List.lookup]
  | cons p d ih =>
      obtain ⟨k₀, v₀⟩ := p
      cases hb : k₀ == k with
      | true => simp [dictSet, hb, dictGet, List.lookup]
      | false =>
          have hk : (k == k₀) = false := by
            simp only [beq_eq_false_iff_ne] at hb ⊢
            exact fun h => hb h.symm
          simpa [dictSet, hb, dictGet, List.lookup, hk] using ih

theorem dictGet_dictSet_ne {α : Type} (d : PyDict α) (k k' : String) (v : α)
    (h : k' ≠ k) : dictGet (dictSet d k v) k' = dictGet d k' := by
  have hk : (k' == k) = false := beq_eq_false_iff_ne.mpr h
  induction d with
  | nil => simp [dictSet, dictGet, List.lookup, hk]
  | cons p d ih =>
      obtain ⟨k₀, v₀⟩ := p
      cases hb : k₀ == k with
      | true =>
          have : k₀ = k := eq_of_beq hb
          subst this
          simp [dictSet, dictGet, List.lookup, hk]
      | false =>
          cases hc : k' == k₀ with
          | true => simp [dictSet, hb, dictGet, List.lookup, hc]
          | false => simpa [dictSet, hb, dictGet, List.lookup, hc] using ih

theorem mem_dictSet {α : Type} {d : PyDict α} {k : String} {v : α}
    {p : String × α} (h : p ∈ dictSet d k v) : p = (k, v) ∨ p ∈ d := by
  induction d with
  | nil => simpa [dictSet] using h
  | cons q d ih =>
      obtain ⟨k₀, v₀⟩ := q
      cases hb : k₀ == k with
      | true =>
          rw [dictSet, if_pos hb] at h
          rcases List.mem_cons.mp h with h | h
          · exact Or.inl h
          · exact Or.inr (List.mem_cons_of_mem _ h)
      | false =>
          rw [dictSet, if_neg (by simp [hb])] at h
          rcases List.mem_cons.mp h with h | h
          · exact Or.inr (h ▸ List.mem_cons_self _ _)
          · rcases ih h with h' | h'
            · exact Or.inl h'
            · exact Or.inr (List.mem_cons_of_mem _ h')

theorem dictGet_mem {α : Type} {d : PyDict α} {k : String} {v : α}
    (h : dictGet d k = some v) : (k, v) ∈ d := by
  induction d with
  | nil => simp [dictGet, List.lookup] at h
  | cons p d ih =>
      obtain ⟨k₀, v₀⟩ := p
      cases hb : k == k₀ with
      | true =>
          have : k = k₀ := eq_of_beq hb
          subst this
          simp [dictGet, List.lookup] at h
          simp [h]
      | false =>
          simp only [dictGet, List.lookup, hb] at h
          exact List.mem_cons_of_mem _ (ih h)

theorem dictGet_isSome_dictSet {α : Type} (d : PyDict α) (k k' : String)
    (v : α) (h : (dictGet d k').isSome) :
    (dictGet (dictSet d k v) k').isSome := by
  by_cases hk : k' = k
  · subst hk; simp [dictGet_dictSet_self]
  · rwa [dictGet_dictSet_ne d k k' v hk]

theorem dictGet_dictSet_isSome_iff {α : Type} (d : PyDict α) (k : String)
    (v : α) (hk : (dictGet d k).isSome) (k' : String) :
    (dictGet (dictSet d k v) k').isSome ↔ (dictGet d k').isSome := by
  by_cases h : k' = k
  · subst h; simp [dictGet_dictSet_self, hk]
  · rw [dictGet_dictSet_ne d k k' v h]

theorem length_dictSet {α : Type} (d : PyDict α) (k : String) (v : α) :
    (dictSet d k v).length =
      if (dictGet d k).isSome then d.length else d.length + 1 := by
  induction d with
  | nil => simp [dictSet, dictGet, List.lookup]
  | cons p d ih =>
      obtain ⟨k₀, v₀⟩ := p
      cases hb : k₀ == k with
      | true =>
          have : k₀ = k := eq_of_beq hb
          subst this
          simp [dictSet, dictGet, List.lookup]
      | false =>
          have hk : (k == k₀) = false := by
            simp only [beq_eq_false_iff_ne] at hb ⊢
            exact fun h => hb h.symm
          simp only [dictSet, hb, Bool.false_eq_true, if_false,
            List.length_cons, dictGet, List.lookup, hk]
          simp only [dictGet] at ih
          rw [ih]
          split <;> rfl

/-- Effect of `update_task_status` on the updated id. -/
theorem dictGet_update_task_status_self (st : PlannerState) (tid : String)
    (s : TaskStatus) (now : Nat) (t₀ : Task)
    (h : dictGet st.tasks tid = some t₀) :
    dictGet (update_task_status st tid s now).tasks tid =
      some { t₀ with status := s, updated_at := now } := by
  simp [update_task_status, h, dictGet_dictSet_self]

/-! ## C9 — serialization roundtrip -/

/-- C9: converting a task to its external dictionary representation and
converting that representation back preserves `id`, `status`, `priority`
and the dependency set's membership exactly, with no duplication; on the
duplicate-free dependency lists the model actually produces, the whole
task is recovered. -/
theorem c9_task_serialization_roundtrip (t : Task) :
    (∃ t', Task.from_dict (Task.to_dict t) = some t' ∧
      t'.id = t.id ∧ t'.status = t.status ∧ t'.priority = t.priority ∧
      (∀ d, d ∈ t'.dependencies ↔ d ∈ t.dependencies) ∧
      t'.dependencies.Nodup) ∧
    (t.dependencies.Nodup → Task.from_dict (Task.to_dict t) = some t) := by
  have hform : Task.from_dict (Task.to_dict t) =
      some { t with dependencies := t.dependencies.dedup } := by
    cases t with
    | mk i ti de status priority deps ca ua m =>
        cases status <;> cases priority <;>
          simp [Task.to_dict, Task.from_dict, TaskStatus.value,
            TaskStatus.fromValue, TaskPriority.value, TaskPriority.fromValue]
  constructor
  · refine ⟨{ t with dependencies := t.dependencies.dedup }, hform,
      rfl, rfl, rfl, ?_, List.nodup_dedup _⟩
    intro d
    exact List.mem_dedup
  · intro hnd
    rw [hform, List.dedup_eq_self.mpr hnd]

/-! ## C7 — single-task fallback on unusable decomposition -/

/-- C7: whenever the decomposition output is unusable — no JSON array /
parse error (`ParseOutcome.failure`) or a malformed task entry (the first
pass aborts) — `create_project_plan` does not raise and returns exactly
one default fallback task whose description is the raw objective text,
with status `Pending`, `High` priority and an empty dependency set. -/
theorem c7_unusable_decomposition_fallback (st : PlannerState)
    (po : Except String ParseOutcome) (objective : String) (now : Nat)
    (h : po = .ok .failure ∨
         ∃ es, po = .ok (.entries es) ∧ (firstPass now st es).2.2 = false) :
    ∃ st', create_project_plan st po objective now =
        .ok (st', [defaultTask objective now]) ∧
      (defaultTask objective now).description = objective ∧
      (defaultTask objective now).status = .pending ∧
      (defaultTask objective now).priority = .high ∧
      (defaultTask objective now).dependencies = [] := by
  rcases h with rfl | ⟨es, rfl, hfail⟩
  · exact ⟨(fallbackPlan st objective now).1, rfl, rfl, rfl, rfl, rfl⟩
  · rcases hfp : firstPass now st es with ⟨st1, ids, ok⟩
    have hok : ok = false := by
      have := hfail
      rw [hfp] at this
      exact this
    subst hok
    refine ⟨(fallbackPlan st1 objective now).1, ?_, rfl, rfl, rfl, rfl⟩
    simp [create_project_plan, hfp, fallbackPlan]

/-- Witness for C7 at a concrete unusable decomposition. -/
theorem c7_witness :
    ((.ok ParseOutcome.failure : Except String ParseOutcome) = .ok .failure ∨
      ∃ es, (.ok ParseOutcome.failure : Except String ParseOutcome) =
          .ok (.entries es) ∧ (firstPass 0 PlannerState.init es).2.2 = false) ∧
    (∃ st', create_project_plan PlannerState.init (.ok .failure) "objective" 0 =
        .ok (st', [defaultTask "objective" 0]) ∧
      (defaultTask "objective" 0).description = "objective" ∧
      (defaultTask "objective" 0).status = .pending ∧
      (defaultTask "objective" 0).priority = .high ∧
      (defaultTask "objective" 0).dependencies = []) :=
  ⟨Or.inl rfl,
   c7_unusable_decomposition_fallback PlannerState.init (.ok .failure)
     "objective" 0 (Or.inl rfl)⟩

/-! ## C4 — outcome totality of the orchestrator -/

/-- C4: `_execute_single_task` never propagates a collaborator exception:
whatever step of the `try` block fails, it marks the task `Failed` and
returns a well-formed outcome whose review has overall score `0.0` and at
least one suggestion string describing the failure.  (Totality itself is
inherent: `execute_single_task` is a total function.) -/
theorem c4_run_task_totality (c : Collab) (st : PlannerState) (task : Task)
    (now : Nat) (e : String)
    (h : execSingleBody c st task now = .error e) :
    execute_single_task c st task now =
      (update_task_status st task.id .failed now,
       { error := some e, analysis := { base := "" },
         review := { overall_score := some 0,
                     improvement_suggestions := some [s!"Task failed: {e}"] } }) ∧
    (execute_single_task c st task now).2.review.score = 0 ∧
    1 ≤ (execute_single_task c st task now).2.review.suggestions.length ∧
    (∀ t₀, dictGet st.tasks task.id = some t₀ →
       dictGet (execute_single_task c st task now).1.tasks task.id =
         some { t₀ with status := .failed, updated_at := now }) := by
  have hx : execute_single_task c st task now =
      (update_task_status st task.id .failed now,
       { error := some e, analysis := { base := "" },
         review := { overall_score := some 0,
                     improvement_suggestions := some [s!"Task failed: {e}"] } }) := by
    unfold execute_single_task
    rw [h]
  refine ⟨hx, ?_, ?_, ?_⟩
  · rw [hx]; rfl
  · rw [hx]; simp [Review.suggestions]
  · intro t₀ ht
    rw [hx]
    exact dictGet_update_task_status_self st task.id .failed now t₀ ht

/-- A collaborator that answers every call successfully; the basis for
the concrete scenarios below. -/
def okCollab : Collab :=
  { plan := fun _ => .ok (.entries
      [{ title := some "A", description := some "dA", priority := some "HIGH" }]),
    analyze_system := fun _ _ => .ok "ana",
    generate_simulation_code := fun _ _ => .ok "code",
    validate_code := fun _ => .ok (true, ""),
    execute_code := fun _ => .ok (true, "", "res"),
    optimize_design := fun _ _ _ _ => .ok "opt",
    review_solution := fun _ => .ok { overall_score := some (mkRat 9 10) },
    add_to_short_term := fun _ => .ok (),
    generate_revision := fun _ _ => .ok none }

/-- A collaborator whose reasoner raises during `analyze_system`. -/
def failAnalyzeCollab : Collab :=
  { okCollab with analyze_system := fun _ _ => .error "analyzer down" }

/-- A concrete task stored in a concrete one-task planner state. -/
def tWit : Task :=
  { id := "t1", title := "T", description := "d", status := .pending,
    priority := .medium, dependencies := [], created_at := 0, updated_at := 0,
    metadata := {} }

/-- Planner state holding `tWit`. -/
def stWit : PlannerState := { tasks := [("t1", tWit)], title_to_id := [] }

/-- Witness for C4 at a concrete injected failure. -/
theorem c4_witness :
    execSingleBody failAnalyzeCollab stWit tWit 0 = .error "analyzer down" ∧
    (execute_single_task failAnalyzeCollab stWit tWit 0 =
      (update_task_status stWit tWit.id .failed 0,
       { error := some "analyzer down", analysis := { base := "" },
         review := { overall_score := some 0,
                     improvement_suggestions :=
                       some [s!"Task failed: analyzer down"] } }) ∧
    (execute_single_task failAnalyzeCollab stWit tWit 0).2.review.score = 0 ∧
    1 ≤ (execute_single_task failAnalyzeCollab stWit tWit 0).2.review.suggestions.length ∧
    (∀ t₀, dictGet stWit.tasks tWit.id = some t₀ →
       dictGet (execute_single_task failAnalyzeCollab stWit tWit 0).1.tasks tWit.id =
         some { t₀ with status := .failed, updated_at := 0 })) :=
  ⟨rfl, c4_run_task_totality failAnalyzeCollab stWit tWit 0 "analyzer down" rfl⟩

/-! ## C5 — the two distinct score thresholds -/

/-- A record differing in `status` is a different record. -/
theorem status_update_ne (t₀ : Task) (now : Nat) {s₁ s₂ : TaskStatus}
    (h : s₁ ≠ s₂) :
    ({ t₀ with status := s₁, updated_at := now } : Task) ≠
      { t₀ with status := s₂, updated_at := now } := by
  intro hEq
  exact h (congrArg Task.status hEq)

/-- C5: the orchestrator's status update (`agent.py:266-272`) completes a
task exactly when the review score is ≥ 0.8 and fails it otherwise, while
the attempt controller's per-task check (`agent.py:146-151`) uses the
distinct threshold 0.7; moreover every successful pass of the
orchestrator's `try` block really applies the 0.8-threshold update. -/
theorem c5_two_thresholds (st : PlannerState) (tid : String) (rv : Review)
    (now : Nat) (t₀ : Task) (h : dictGet st.tasks tid = some t₀) :
    (dictGet (orchestratorStatusUpdate st tid rv now).tasks tid =
        some { t₀ with status := .completed, updated_at := now } ↔
      mkRat 8 10 ≤ rv.score) ∧
    (dictGet (orchestratorStatusUpdate st tid rv now).tasks tid =
        some { t₀ with status := .failed, updated_at := now } ↔
      ¬ mkRat 8 10 ≤ rv.score) ∧
    (dictGet (controllerStatusUpdate st tid rv now).tasks tid =
        some { t₀ with status := .completed, updated_at := now } ↔
      mkRat 7 10 ≤ rv.score) ∧
    (dictGet (controllerStatusUpdate st tid rv now).tasks tid =
        some { t₀ with status := .failed, updated_at := now } ↔
      ¬ mkRat 7 10 ≤ rv.score) ∧
    (mkRat 8 10 ≠ mkRat 7 10) ∧
    (∀ (c : Collab) (task : Task) (now' : Nat) (st' : PlannerState)
        (r : TaskResult), execSingleBody c st task now' = .ok (st', r) →
      st' = orchestratorStatusUpdate st task.id r.review now') := by
  have hcomp := dictGet_update_task_status_self st tid .completed now t₀ h
  have hfail := dictGet_update_task_status_self st tid .failed now t₀ h
  have hne : ({ t₀ with status := .failed, updated_at := now } : Task) ≠
      { t₀ with status := .completed, updated_at := now } :=
    status_update_ne t₀ now (by intro hs; cases hs)
  refine ⟨?_, ?_, ?_, ?_, by rw [Rat.mkRat_eq_div, Rat.mkRat_eq_div]; norm_num, ?_⟩
  · by_cases hc : mkRat 8 10 ≤ rv.score
    · rw [orchestratorStatusUpdate, if_pos hc]
      exact iff_of_true hcomp hc
    · rw [orchestratorStatusUpdate, if_neg hc]
      refine iff_of_false ?_ hc
      intro hq
      rw [hfail] at hq
      exact hne (Option.some.inj hq)
  · by_cases hc : mkRat 8 10 ≤ rv.score
    · rw [orchestratorStatusUpdate, if_pos hc]
      refine iff_of_false ?_ (not_not_intro hc)
      intro hq
      rw [hcomp] at hq
      exact hne (Option.some.inj hq).symm
    · rw [orchestratorStatusUpdate, if_neg hc]
      exact iff_of_true hfail hc
  · by_cases hc : mkRat 7 10 ≤ rv.score
    · rw [controllerStatusUpdate, if_pos hc]
      exact iff_of_true hcomp hc
    · rw [controllerStatusUpdate, if_neg hc]
      refine iff_of_false ?_ hc
      intro hq
      rw [hfail] at hq
      exact hne (Option.some.inj hq)
  · by_cases hc : mkRat 7 10 ≤ rv.score
    · rw [controllerStatusUpdate, if_pos hc]
      refine iff_of_false ?_ (not_not_intro hc)
      intro hq
      rw [hcomp] at hq
      exact hne (Option.some.inj hq).symm
    · rw [controllerStatusUpdate, if_neg hc]
      exact iff_of_true hfail hc
  · intro c task now' st' r hbody
    unfold execSingleBody at hbody
    cases h₁ : c.analyze_system task.description task.metadata.getAnalysisType with
    | error e => simp only [h₁] at hbody; exact Except.noConfusion hbody
    | ok base =>
        simp only [h₁] at hbody
        cases h₂ : codeStep c task { base := base } with
        | error e => simp only [h₂] at hbody; exact Except.noConfusion hbody
        | ok a1 =>
            simp only [h₂] at hbody
            cases h₃ : optStep c task a1 with
            | error e => simp only [h₃] at hbody; exact Except.noConfusion hbody
            | ok a2 =>
                simp only [h₃] at hbody
                cases h₄ : c.review_solution
                    (.ofAnalysis a2 task.metadata.getRequirements) with
                | error e => simp only [h₄] at hbody; exact Except.noConfusion hbody
                | ok rv' =>
                    simp only [h₄] at hbody
                    have hp := Except.ok.inj hbody
                    have hst : st' = orchestratorStatusUpdate st task.id rv' now' :=
                      (congrArg Prod.fst hp).symm
                    have hr : r = { error := none, analysis := a2, review := rv' } :=
                      (congrArg Prod.snd hp).symm
                    rw [hst, hr]

/-- Witness for C5 at a concrete state, id and review. -/
theorem c5_witness :
    dictGet stWit.tasks "t1" = some tWit ∧
    ((dictGet (orchestratorStatusUpdate stWit "t1"
          { overall_score := some (mkRat 3 4) } 1).tasks "t1" =
        some { tWit with status := .completed, updated_at := 1 } ↔
      mkRat 8 10 ≤ Review.score { overall_score := some (mkRat 3 4) }) ∧
     (dictGet (orchestratorStatusUpdate stWit "t1"
          { overall_score := some (mkRat 3 4) } 1).tasks "t1" =
        some { tWit with status := .failed, updated_at := 1 } ↔
      ¬ mkRat 8 10 ≤ Review.score { overall_score := some (mkRat 3 4) }) ∧
     (dictGet (controllerStatusUpdate stWit "t1"
          { overall_score := some (mkRat 3 4) } 1).tasks "t1" =
        some { tWit with status := .completed, updated_at := 1 } ↔
      mkRat 7 10 ≤ Review.score { overall_score := some (mkRat 3 4) }) ∧
     (dictGet (controllerStatusUpdate stWit "t1"
          { overall_score := some (mkRat 3 4) } 1).tasks "t1" =
        some { tWit with status := .failed, updated_at := 1 } ↔
      ¬ mkRat 7 10 ≤ Review.score { overall_score := some (mkRat 3 4) }) ∧
     (mkRat 8 10 ≠ mkRat 7 10) ∧
     (∀ (c : Collab) (task : Task) (now' : Nat) (st' : PlannerState)
         (r : TaskResult), execSingleBody c stWit task now' = .ok (st', r) →
       st' = orchestratorStatusUpdate stWit task.id r.review now')) :=
  ⟨rfl, c5_two_thresholds stWit "t1" { overall_score := some (mkRat 3 4) } 1
     tWit rfl⟩


/-! ## C3 — ready-set correctness and ordering -/

/-- A task dict in which every dependency id of every stored task is
itself a stored id (so the unguarded `self.tasks[dep_id]` lookups cannot
raise `KeyError`). -/
def TasksClosed (tasks : PyDict Task) : Prop :=
  ∀ p ∈ tasks, ∀ d ∈ (Prod.snd p).dependencies, (dictGet tasks d).isSome

instance (tasks : PyDict Task) : Decidable (TasksClosed tasks) := by
  unfold TasksClosed
  infer_instance

/-- The spec's readiness condition: `status == Pending` and every
dependency task has `status == Completed` (an empty dependency set
qualifying trivially). -/
def ReadySpec (tasks : PyDict Task) (t : Task) : Prop :=
  t.status = .pending ∧
  ∀ d ∈ t.dependencies, ∃ u, dictGet tasks d = some u ∧ u.status = .completed

/-- Boolean form of the readiness condition. -/
def readyB (tasks : PyDict Task) (t : Task) : Bool :=
  (t.status == TaskStatus.pending) &&
  t.dependencies.all (fun d =>
    match dictGet tasks d with
    | some u => u.status == TaskStatus.completed
    | none => false)

theorem readyB_iff (tasks : PyDict Task) (t : Task) :
    readyB tasks t = true ↔ ReadySpec tasks t := by
  unfold readyB ReadySpec
  rw [Bool.and_eq_true, beq_iff_eq, List.all_eq_true]
  constructor
  · rintro ⟨hs, hall⟩
    refine ⟨hs, fun d hd => ?_⟩
    have := hall d hd
    cases hu : dictGet tasks d with
    | none => rw [hu] at this; cases this
    | some u =>
        rw [hu] at this
        exact ⟨u, rfl, by simpa using this⟩
  · rintro ⟨hs, hall⟩
    refine ⟨hs, fun d hd => ?_⟩
    obtain ⟨u, hu, hcu⟩ := hall d hd
    rw [hu]
    simpa using hcu

theorem depsCompleted_total (tasks : PyDict Task) (ds : List String)
    (h : ∀ d ∈ ds, (dictGet tasks d).isSome) :
    depsCompleted tasks ds =
      some (ds.all (fun d =>
        match dictGet tasks d with
        | some u => u.status == TaskStatus.completed
        | none => false)) := by
  induction ds with
  | nil => simp [depsCompleted]
  | cons d ds ih =>
      have hd := h d (List.mem_cons_self _ _)
      obtain ⟨u, hu⟩ := Option.isSome_iff_exists.mp hd
      by_cases hc : u.status = .completed
      · simp only [depsCompleted, hu]
        rw [if_pos hc, ih (fun x hx => h x (List.mem_cons_of_mem _ hx))]
        simp [List.all_cons, hu, hc]
      · simp only [depsCompleted, hu]
        rw [if_neg hc]
        have hcb : (u.status == TaskStatus.completed) = false := by
          simpa using hc
        simp [List.all_cons, hu, hcb]

theorem collectReady_total (tasks : PyDict Task) (ts : List Task)
    (h : ∀ t ∈ ts, ∀ d ∈ t.dependencies, (dictGet tasks d).isSome) :
    collectReady tasks ts = some (ts.filter (readyB tasks)) := by
  induction ts with
  | nil => simp [collectReady]
  | cons t ts ih =>
      have ht : ∀ d ∈ t.dependencies, (dictGet tasks d).isSome :=
        fun d hd => h t (List.mem_cons_self _ _) d hd
      have ih' := ih (fun x hx => h x (List.mem_cons_of_mem _ hx))
      by_cases hs : t.status = .pending
      · rw [collectReady, if_pos hs,
            depsCompleted_total tasks _ ht]
        by_cases hall : t.dependencies.all (fun d =>
            match dictGet tasks d with
            | some u => u.status == TaskStatus.completed
            | none => false) = true
        · rw [hall, ih']
          have hr : readyB tasks t = true := by
            unfold readyB
            rw [Bool.and_eq_true, beq_iff_eq]
            exact ⟨hs, hall⟩
          simp [List.filter_cons, hr]
        · have hall' : t.dependencies.all (fun d =>
              match dictGet tasks d with
              | some u => u.status == TaskStatus.completed
              | none => false) = false := by
            cases hx : t.dependencies.all (fun d =>
                match dictGet tasks d with
                | some u => u.status == TaskStatus.completed
                | none => false)
            · rfl
            · exact absurd hx hall
          rw [hall', ih']
          have hr : readyB tasks t = false := by
            unfold readyB
            rw [hall']
            simp
          simp [List.filter_cons, hr]
      · rw [collectReady, if_neg hs, ih']
        have hr : readyB tasks t = false := by
          unfold readyB
          have : (t.status == TaskStatus.pending) = false := by simpa using hs
          rw [this]
          simp
        simp [List.filter_cons, hr]

theorem mem_insertDesc (t a : Task) (l : List Task) :
    a ∈ insertDesc t l ↔ a = t ∨ a ∈ l := by
  induction l with
  | nil => simp [insertDesc]
  | cons h r ih =>
      rw [insertDesc]
      split
      · rw [List.mem_cons, ih, List.mem_cons]
        tauto
      · simp [List.mem_cons]

theorem sorted_insertDesc (t : Task) (l : List Task)
    (h : l.Pairwise (fun a b => b.priority.value ≤ a.priority.value)) :
    (insertDesc t l).Pairwise (fun a b => b.priority.value ≤ a.priority.value) := by
  induction l with
  | nil => simp [insertDesc]
  | cons x r ih =>
      rw [List.pairwise_cons] at h
      obtain ⟨hx, hr⟩ := h
      rw [insertDesc]
      split
      · rename_i hlt
        rw [List.pairwise_cons]
        refine ⟨fun b hb => ?_, ih hr⟩
        rcases (mem_insertDesc t b r).mp hb with rfl | hb
        · exact Nat.le_of_lt hlt
        · exact hx b hb
      · rename_i hge
        rw [List.pairwise_cons]
        refine ⟨fun b hb => ?_, List.pairwise_cons.mpr ⟨hx, hr⟩⟩
        rcases List.mem_cons.mp hb with rfl | hb
        · exact Nat.le_of_not_lt hge
        · exact Nat.le_trans (hx b hb) (Nat.le_of_not_lt hge)

theorem sorted_sortDesc (l : List Task) :
    (sortDesc l).Pairwise (fun a b => b.priority.value ≤ a.priority.value) := by
  induction l with
  | nil => simp [sortDesc]
  | cons x xs ih => exact sorted_insertDesc x (sortDesc xs) ih

theorem mem_sortDesc (a : Task) (l : List Task) :
    a ∈ sortDesc l ↔ a ∈ l := by
  induction l with
  | nil => simp [sortDesc]
  | cons x xs ih =>
      rw [sortDesc, mem_insertDesc, ih, List.mem_cons]

theorem filter_insertDesc (t : Task) (l : List Task) (p : Nat) :
    (insertDesc t l).filter (fun a => a.priority.value == p) =
      if t.priority.value == p then
        t :: l.filter (fun a => a.priority.value == p)
      else l.filter (fun a => a.priority.value == p) := by
  induction l with
  | nil =>
      rw [insertDesc]
      cases hq : (t.priority.value == p) <;> simp [List.filter, hq]
  | cons h r ih =>
      rw [insertDesc]
      split
      · rename_i hlt
        rw [List.filter_cons, ih]
        cases hq : (t.priority.value == p) with
        | true =>
            have hp : t.priority.value = p := by simpa using hq
            have hh : (h.priority.value == p) = false := by
              have hne : h.priority.value ≠ p := by
                intro hhp
                exact absurd (hp.trans hhp.symm) (Nat.ne_of_lt hlt)
              simpa using hne
            simp [hq, hh, List.filter_cons]
        | false => simp [hq, List.filter_cons]
      · rw [List.filter_cons]

theorem filter_sortDesc (l : List Task) (p : Nat) :
    (sortDesc l).filter (fun a => a.priority.value == p) =
      l.filter (fun a => a.priority.value == p) := by
  induction l with
  | nil => rfl
  | cons x xs ih =>
      rw [sortDesc, filter_insertDesc, ih, List.filter_cons]


/-- Example task A: priority High, no dependencies. -/
def tA : Task :=
  { id := "A", title := "A", description := "", status := .pending,
    priority := .high, dependencies := [], created_at := 0, updated_at := 0,
    metadata := {} }

/-- Example task B: priority Low, no dependencies. -/
def tB : Task :=
  { id := "B", title := "B", description := "", status := .pending,
    priority := .low, dependencies := [], created_at := 0, updated_at := 0,
    metadata := {} }

/-- Example task C: priority High, no dependencies. -/
def tC : Task :=
  { id := "C", title := "C", description := "", status := .pending,
    priority := .high, dependencies := [], created_at := 0, updated_at := 0,
    metadata := {} }

/-- Graph holding A, B, C in insertion order A, B, C. -/
def exACB : PlannerState :=
  { tasks := [("A", tA), ("B", tB), ("C", tC)], title_to_id := [] }

/-- C3: on every dependency-closed graph state, `get_next_tasks` returns
exactly the `Pending` tasks all of whose dependencies are `Completed`
(an empty dependency set qualifying trivially), sorted by priority value
descending, with equal-priority tasks preserving graph iteration
(insertion) order (the filtered insertion-order list is recovered by
filtering the result at each priority value); in particular for
A(High), B(Low), C(High) inserted in order A, B, C it returns
[A, C, B]. -/
theorem c3_ready_set_correctness (st : PlannerState)
    (h : TasksClosed st.tasks) :
    ∃ l, get_next_tasks st = some l ∧
      (∀ t : Task, t ∈ l ↔ t ∈ st.tasks.map Prod.snd ∧ ReadySpec st.tasks t) ∧
      l.Pairwise (fun a b => b.priority.value ≤ a.priority.value) ∧
      (∀ p : Nat, l.filter (fun a => a.priority.value == p) =
        ((st.tasks.map Prod.snd).filter (readyB st.tasks)).filter
          (fun a => a.priority.value == p)) ∧
      get_next_tasks exACB = some [tA, tC, tB] := by
  have hcl : ∀ t ∈ st.tasks.map Prod.snd, ∀ d ∈ t.dependencies,
      (dictGet st.tasks d).isSome := by
    intro t ht d hd
    obtain ⟨p, hp, rfl⟩ := List.mem_map.mp ht
    exact h p hp d hd
  have hcr := collectReady_total st.tasks _ hcl
  refine ⟨sortDesc ((st.tasks.map Prod.snd).filter (readyB st.tasks)),
    ?_, ?_, ?_, ?_, by decide⟩
  · rw [get_next_tasks, hcr]
    rfl
  · intro t
    rw [mem_sortDesc, List.mem_filter, readyB_iff]
  · exact sorted_sortDesc _
  · intro p
    exact filter_sortDesc _ p

/-- Witness for C3 at the concrete graph A(High), B(Low), C(High). -/
theorem c3_witness :
    TasksClosed exACB.tasks ∧
    (∃ l, get_next_tasks exACB = some l ∧
      (∀ t : Task, t ∈ l ↔
        t ∈ exACB.tasks.map Prod.snd ∧ ReadySpec exACB.tasks t) ∧
      l.Pairwise (fun a b => b.priority.value ≤ a.priority.value) ∧
      (∀ p : Nat, l.filter (fun a => a.priority.value == p) =
        ((exACB.tasks.map Prod.snd).filter (readyB exACB.tasks)).filter
          (fun a => a.priority.value == p)) ∧
      get_next_tasks exACB = some [tA, tC, tB]) :=
  ⟨by decide, c3_ready_set_correctness exACB (by decide)⟩


/-! ## C10 — dependency-closure invariant of the planner -/

/-- Every value of `title_to_id` is a stored task id. -/
def TitlesClosed (st : PlannerState) : Prop :=
  ∀ p ∈ st.title_to_id, (dictGet st.tasks (Prod.snd p)).isSome

/-- The planner invariant: dependency ids and title-map values always
resolve to stored tasks. -/
def PlannerInv (st : PlannerState) : Prop :=
  TasksClosed st.tasks ∧ TitlesClosed st

/-- States reachable through the planner's mutating operations: the fresh
planner, plan creation (a failing LLM call leaves the state unchanged, so
only the `.ok` case matters) and status updates. -/
inductive PlannerReachable : PlannerState → Prop
  | init : PlannerReachable PlannerState.init
  | plan (st st' : PlannerState) (po : Except String ParseOutcome)
      (obj : String) (now : Nat) (ts : List Task) :
      PlannerReachable st →
      create_project_plan st po obj now = .ok (st', ts) →
      PlannerReachable st'
  | update (st : PlannerState) (tid : String) (s : TaskStatus) (now : Nat) :
      PlannerReachable st →
      PlannerReachable (update_task_status st tid s now)

/-- Storing a task (with closed dependencies) and registering its title
preserves the invariant. -/
theorem plannerInv_add (st : PlannerState) (tid ti : String) (task : Task)
    (hInv : PlannerInv st)
    (hdeps : ∀ d ∈ task.dependencies,
      (dictGet (dictSet st.tasks tid task) d).isSome) :
    PlannerInv { tasks := dictSet st.tasks tid task,
                 title_to_id := dictSet st.title_to_id ti tid } := by
  obtain ⟨hT, hI⟩ := hInv
  constructor
  · intro p hp d hd
    rcases mem_dictSet hp with rfl | hp'
    · exact hdeps d hd
    · exact dictGet_isSome_dictSet _ _ _ _ (hT p hp' d hd)
  · intro p hp
    rcases mem_dictSet hp with rfl | hp'
    · simp [dictGet_dictSet_self]
    · exact dictGet_isSome_dictSet _ _ _ _ (hI p hp')

/-- The first pass of plan creation preserves the invariant (each created
task starts with an empty dependency set). -/
theorem firstPass_inv (now : Nat) :
    ∀ (es : List TaskEntry) (st : PlannerState), PlannerInv st →
      PlannerInv (firstPass now st es).1 := by
  intro es
  induction es with
  | nil => intro st hInv; simpa [firstPass] using hInv
  | cons e rest ih =>
      intro st hInv
      obtain ⟨eti, ede, epr, edeps, em⟩ := e
      cases eti with
      | none => simpa [firstPass] using hInv
      | some ti =>
        cases ede with
        | none => simpa [firstPass] using hInv
        | some de =>
          cases epr with
          | none => simpa [firstPass] using hInv
          | some pn =>
            cases hp : TaskPriority.fromName pn with
            | none => simpa [firstPass, hp] using hInv
            | some pr =>
                simp only [firstPass, hp]
                have hInv' : PlannerInv (addPlanTask st ti de pr em now) :=
                  plannerInv_add st (planTaskId st) ti _ hInv
                    (by intro d hd; cases hd)
                have h2 := ih (addPlanTask st ti de pr em now) hInv'
                rcases hfp : firstPass now (addPlanTask st ti de pr em now)
                  rest with ⟨st2, ids2, ok2⟩
                rw [hfp] at h2
                simpa [hfp] using h2

/-- The second pass of plan creation preserves the invariant: it only
rewrites dependency sets with resolved `title_to_id` values. -/
theorem secondPass_inv :
    ∀ (pairs : List (TaskEntry × String)) (st : PlannerState),
      PlannerInv st → PlannerInv (secondPass st pairs) := by
  intro pairs
  induction pairs with
  | nil => intro st hInv; simpa [secondPass] using hInv
  | cons p rest ih =>
      intro st hInv
      obtain ⟨e, tid⟩ := p
      cases he : e.dependencies with
      | none => rw [secondPass, he]; exact ih st hInv
      | some deps =>
          rw [secondPass, he]
          apply ih
          cases ht : dictGet st.tasks tid with
          | none => simpa [ht] using hInv
          | some t =>
              obtain ⟨hT, hI⟩ := hInv
              simp only [ht]
              constructor
              · intro p hp d hd
                rcases mem_dictSet hp with rfl | hp'
                · simp only at hd
                  have hd' := List.mem_dedup.mp hd
                  obtain ⟨dt, _, hdt⟩ := List.mem_filterMap.mp hd'
                  have hmem := dictGet_mem hdt
                  exact dictGet_isSome_dictSet _ _ _ _ (hI (dt, d) hmem)
                · exact dictGet_isSome_dictSet _ _ _ _ (hT p hp' d hd)
              · intro p hp
                exact dictGet_isSome_dictSet _ _ _ _ (hI p hp)

/-- The fallback plan preserves the invariant. -/
theorem fallbackPlan_inv (st : PlannerState) (objective : String) (now : Nat)
    (hInv : PlannerInv st) : PlannerInv (fallbackPlan st objective now).1 := by
  exact plannerInv_add st "task_0" "Main Task" (defaultTask objective now)
    hInv (by intro d hd; cases hd)

/-- `create_project_plan` preserves the invariant. -/
theorem create_project_plan_inv (st st' : PlannerState)
    (po : Except String ParseOutcome) (objective : String) (now : Nat)
    (ts : List Task)
    (h : create_project_plan st po objective now = .ok (st', ts))
    (hInv : PlannerInv st) : PlannerInv st' := by
  cases po with
  | error e => cases h
  | ok p =>
      cases p with
      | failure =>
          have hfst : (fallbackPlan st objective now).1 = st' :=
            congrArg Prod.fst (Except.ok.inj h)
          rw [← hfst]
          exact fallbackPlan_inv st objective now hInv
      | entries es =>
          rcases hfp : firstPass now st es with ⟨st1, ids, ok⟩
          have hInv1 : PlannerInv st1 := by
            have := firstPass_inv now es st hInv
            rw [hfp] at this
            exact this
          cases ok with
          | true =>
              simp only [create_project_plan, hfp, if_true] at h
              have hfst : secondPass st1 (es.zip ids) = st' :=
                congrArg Prod.fst (Except.ok.inj h)
              rw [← hfst]
              exact secondPass_inv (es.zip ids) st1 hInv1
          | false =>
              simp only [create_project_plan, hfp, Bool.false_eq_true,
                if_false] at h
              have hfst : (fallbackPlan st1 objective now).1 = st' :=
                congrArg Prod.fst (Except.ok.inj h)
              rw [← hfst]
              exact fallbackPlan_inv st1 objective now hInv1

/-- `update_task_status` preserves the invariant: it never changes the key
set or any dependency set. -/
theorem update_task_status_inv (st : PlannerState) (tid : String)
    (s : TaskStatus) (now : Nat) (hInv : PlannerInv st) :
    PlannerInv (update_task_status st tid s now) := by
  obtain ⟨hT, hI⟩ := hInv
  cases ht : dictGet st.tasks tid with
  | none => simpa [update_task_status, ht] using ⟨hT, hI⟩
  | some t =>
      have hk : (dictGet st.tasks tid).isSome := by simp [ht]
      rw [update_task_status, ht]
      constructor
      · intro p hp d hd
        rw [dictGet_dictSet_isSome_iff _ _ _ hk]
        rcases mem_dictSet hp with rfl | hp'
        · exact hT (tid, t) (dictGet_mem ht) d hd
        · exact hT p hp' d hd
      · intro p hp
        rw [dictGet_dictSet_isSome_iff _ _ _ hk]
        exact hI p hp

/-- Every reachable planner state satisfies the invariant. -/
theorem plannerReachable_inv (st : PlannerState)
    (h : PlannerReachable st) : PlannerInv st := by
  induction h with
  | init =>
      constructor
      · intro p hp; cases hp
      · intro p hp; cases hp
  | plan st st' po obj now ts _ hcreate ih =>
      exact create_project_plan_inv st st' po obj now ts hcreate ih
  | update st tid s now _ ih =>
      exact update_task_status_inv st tid s now ih

theorem anyDepNotCompleted_total (tasks : PyDict Task) (ds : List String)
    (h : ∀ d ∈ ds, (dictGet tasks d).isSome) :
    (anyDepNotCompleted tasks ds).isSome := by
  induction ds with
  | nil => simp [anyDepNotCompleted]
  | cons d ds ih =>
      obtain ⟨u, hu⟩ := Option.isSome_iff_exists.mp (h d (List.mem_cons_self _ _))
      simp only [anyDepNotCompleted, hu]
      by_cases hc : u.status = .completed
      · rw [if_pos hc]
        exact ih (fun x hx => h x (List.mem_cons_of_mem _ hx))
      · rw [if_neg hc]
        rfl

theorem collectBlocked_total (tasks : PyDict Task) (ts : List Task)
    (h : ∀ t ∈ ts, ∀ d ∈ t.dependencies, (dictGet tasks d).isSome) :
    (collectBlocked tasks ts).isSome := by
  induction ts with
  | nil => simp [collectBlocked]
  | cons t ts ih =>
      have ih' := ih (fun x hx => h x (List.mem_cons_of_mem _ hx))
      by_cases hs : t.status = .pending
      · rw [collectBlocked, if_pos hs]
        have ha := anyDepNotCompleted_total tasks t.dependencies
          (fun d hd => h t (List.mem_cons_self _ _) d hd)
        obtain ⟨b, hb⟩ := Option.isSome_iff_exists.mp ha
        rw [hb]
        cases b
        · exact ih'
        · simpa using ih'
      · rw [collectBlocked, if_neg hs]
        exact ih'

/-- C10: after every planner operation — plan creation (including the
fallback), status update — every dependency id of every stored task is
itself a stored task id, so the unguarded `self.tasks[dep_id]` lookups in
`get_next_tasks` and `get_blocked_tasks` never raise `KeyError` (both
return a value rather than the `none` that models an uncaught
exception). -/
theorem c10_dependency_closure (st : PlannerState)
    (h : PlannerReachable st) :
    TasksClosed st.tasks ∧ (get_next_tasks st).isSome ∧
    (get_blocked_tasks st).isSome := by
  have hInv := plannerReachable_inv st h
  obtain ⟨hT, _⟩ := hInv
  have hcl : ∀ t ∈ st.tasks.map Prod.snd, ∀ d ∈ t.dependencies,
      (dictGet st.tasks d).isSome := by
    intro t ht d hd
    obtain ⟨p, hp, rfl⟩ := List.mem_map.mp ht
    exact hT p hp d hd
  refine ⟨hT, ?_, ?_⟩
  · rw [get_next_tasks, collectReady_total st.tasks _ hcl]
    rfl
  · exact collectBlocked_total st.tasks _ hcl

/-- Witness for C10 at a concrete reachable state (one fallback plan). -/
theorem c10_witness :
    PlannerReachable (fallbackPlan PlannerState.init "o" 0).1 ∧
    (TasksClosed (fallbackPlan PlannerState.init "o" 0).1.tasks ∧
     (get_next_tasks (fallbackPlan PlannerState.init "o" 0).1).isSome ∧
     (get_blocked_tasks (fallbackPlan PlannerState.init "o" 0).1).isSome) :=
  have hr : PlannerReachable (fallbackPlan PlannerState.init "o" 0).1 :=
    PlannerReachable.plan PlannerState.init _ (.ok .failure) "o" 0
      (fallbackPlan PlannerState.init "o" 0).2 PlannerReachable.init rfl
  ⟨hr, c10_dependency_closure _ hr⟩


/-! ## C1 — the controller's success check -/

/-- The result dicts built at `agent.py:275-278` / `agent.py:286-293` have
top-level keys `error?`/`analysis`/`review` only, so the success check's
lookup `r.get("overall_score", 0)` (`agent.py:176`) always returns its
default `0`, and the check passes only for an empty result list. -/
theorem allPassed_eq_isEmpty (rs : List TaskResult) :
    allPassed rs = rs.isEmpty := by
  induction rs with
  | nil => rfl
  | cons r rs _ =>
      have h1 : ("overall_score" == "error") = false := by decide
      have h2 : ("overall_score" == "analysis") = false := by decide
      have h3 : ("overall_score" == "review") = false := by decide
      have hkey : pyDictGetD r.toPy "overall_score" (.num 0) = .num 0 := by
        cases herr : r.error with
        | none => simp [TaskResult.toPy, pyDictGetD, List.lookup, herr, h2, h3]
        | some e =>
            simp [TaskResult.toPy, pyDictGetD, List.lookup, herr, h1, h2, h3]
      have hq : ¬ (mkRat 7 10 ≤ (0 : ℚ)) := by decide
      simp [allPassed, List.all_cons, hkey, pyGeQ, hq, List.isEmpty]

/-- C1 (code-bug evidence): the attempt-level success check reads
`overall_score` at the top level of each result dict, where the key never
occurs, so it is never satisfied for a non-empty plan; with a single-task
plan whose every review scores 0.9 (≥ 0.7), the controller still burns all
3 attempts and returns the exhausted failure instead of `Success`. -/
theorem c1_success_never_returned :
    (∀ rs : List TaskResult, allPassed rs = rs.isEmpty) ∧
    (execute_task okCollab "objective" 0 PlannerState.init).1 =
      ExecOutcome.exhausted 3 [] ∧
    (execute_task okCollab "objective" 0 PlannerState.init).2.2.allResults.map
        (fun r => r.review.score) = [mkRat 9 10, mkRat 9 10, mkRat 9 10] :=
  ⟨allPassed_eq_isEmpty, by decide, by decide⟩

/-! ## C2 — dispatch ignores the scheduler's ready sets -/

/-- Collaborator producing a two-task plan where B depends on A, with
every review scoring 0. -/
def depCollab : Collab :=
  { okCollab with
    plan := fun _ => .ok (.entries
      [{ title := some "A", description := some "dA", priority := some "HIGH" },
       { title := some "B", description := some "dB", priority := some "HIGH",
         dependencies := some ["A"] }]),
    review_solution := fun _ => .ok { overall_score := some 0 } }

/-- C2 counterexample: the controller dispatches `task_1` (which depends
on `task_0`) although `task_0` has status `Failed` — not `Completed` — at
dispatch time, so tasks are not handed out only from ready sets. -/
theorem c2_counterexample :
    ((execute_task depCollab "objective" 0 PlannerState.init).2.2.trace.map
        DispatchEvent.taskId) =
      ["task_0", "task_1", "task_2", "task_3", "task_4"] ∧
    ((execute_task depCollab "objective" 0 PlannerState.init).2.2.trace.get? 1).map
        (fun ev => (ev.taskId, ev.deps,
          (dictGet ev.graphAtDispatch "task_0").map Task.status)) =
      some ("task_1", ["task_0"], some TaskStatus.failed) := by
  constructor
  · decide
  · decide

/-- C2 amended: within one attempt the controller executes the planner's
task list in plan order — each dispatched id extends a prefix of the plan
ids, independent of any dependency status; no ready-set computation is
consulted. -/
theorem c2_amended_dispatch_order (c : Collab) (attempt now : Nat)
    (ls : LoopState) (ts : List Task) :
    ∃ k, k ≤ ts.length ∧
      (runTasks c attempt now ls ts).1.trace.map DispatchEvent.taskId =
        ls.trace.map DispatchEvent.taskId ++ (ts.map Task.id).take k := by
  induction ls, ts using runTasks.induct c attempt now with
  | case1 ls => exact ⟨0, Nat.zero_le _, by simp [runTasks]⟩
  | case2 ls task rest st' result hex e hm =>
      refine ⟨1, by simp, ?_⟩
      simp [runTasks, hex, hm, List.map_append]
  | case3 ls task rest st' result hex a hm e hr =>
      refine ⟨1, by simp, ?_⟩
      simp [runTasks, hex, hm, hr, List.map_append]
  | case4 ls task rest ev st' result hex ls1 a hm rv hr ls2 hsc ih =>
      obtain ⟨k, hk, htr⟩ := ih
      refine ⟨k + 1, by simpa using hk, ?_⟩
      unfold ls2 ls1 ev at htr
      simp only [runTasks, hex, hm, hr, if_pos hsc]
      simp [htr, List.map_append, List.take_succ_cons]
  | case5 ls task rest st' result hex a hm rv hr hsc hat =>
      refine ⟨1, by simp, ?_⟩
      simp only [runTasks, hex, hm, hr, if_neg hsc, if_pos hat]
      simp [List.map_append]
  | case6 ls task rest ev st' result hex ls1 a hm rv hr ls2 hsc ls3 hat hsg e hrev =>
      refine ⟨1, by simp, ?_⟩
      unfold ls3 ls2 ls1 ev at hrev
      simp only [runTasks, hex, hm, hr, if_neg hsc, if_neg hat, if_pos hsg,
        hrev]
      simp [List.map_append]
  | case7 ls task rest ev st' result hex ls1 a hm rv hr ls2 hsc ls3 hat hsg resp hrev ih =>
      obtain ⟨k, hk, htr⟩ := ih
      refine ⟨k + 1, by simpa using hk, ?_⟩
      unfold ls3 ls2 ls1 ev at htr hrev
      simp only [runTasks, hex, hm, hr, if_neg hsc, if_neg hat, if_pos hsg,
        hrev]
      simp [htr, List.map_append, List.take_succ_cons]
  | case8 ls task rest ev st' result hex ls1 a hm rv hr ls2 hsc ls3 hat hsg ih =>
      obtain ⟨k, hk, htr⟩ := ih
      refine ⟨k + 1, by simpa using hk, ?_⟩
      unfold ls3 ls2 ls1 ev at htr
      simp only [runTasks, hex, hm, hr, if_neg hsc, if_neg hat, if_neg hsg]
      simp [htr, List.map_append, List.take_succ_cons]


/-! ## C6 — attempt bound and the returned history -/

/-- The attempt loop performs at most one planner decomposition per
remaining attempt. -/
theorem attemptLoop_planCalls_le (c : Collab) (now : Nat) :
    ∀ (remaining attempt : Nat) (st : PlannerState) (input : String)
      (prev : List AttemptRecord) (instr : Instr),
      (attemptLoop c now remaining attempt st input prev instr).2.2.planCalls ≤
        instr.planCalls + remaining := by
  intro remaining attempt st input prev instr
  induction remaining, attempt, st, input, prev, instr
    using attemptLoop.induct c now with
  | case1 x st x1 prev instr => simp [attemptLoop]
  | case2 remaining attempt st input prev instr attempt' e hc hat =>
      have hat2 : attempt + 1 = maxAttempts := hat
      simp only [attemptLoop, hc]
      rw [if_pos hat2]
      exact show instr.planCalls + 1 ≤ instr.planCalls + (remaining + 1) by omega
  | case3 remaining attempt st input prev instr attempt' instr1 e hc hne ih =>
      have hne2 : ¬ (attempt + 1 = maxAttempts) := hne
      have ih2 : (attemptLoop c now remaining (attempt + 1) st input prev
          { trace := instr.trace, planCalls := instr.planCalls + 1,
            allResults := instr.allResults }).2.2.planCalls ≤
          instr.planCalls + 1 + remaining := ih
      simp only [attemptLoop, hc]
      rw [if_neg hne2]
      omega
  | case4 remaining attempt st input prev instr attempt' instr1 st1 tasks hc ls s hat hrun =>
      have hat2 : attempt + 1 = maxAttempts := hat
      have hrun2 : runTasks c (attempt + 1) now
          { planner := st1, task_input := input, previous_attempts := prev,
            results := [], trace := instr.trace,
            allResults := instr.allResults } tasks = (ls, some s) := hrun
      simp only [attemptLoop, hc, hrun2]
      rw [if_pos hat2]
      exact show instr.planCalls + 1 ≤ instr.planCalls + (remaining + 1) by omega
  | case5 remaining attempt st input prev instr attempt' instr1 st1 tasks hc ls instr2 s hne hrun ih =>
      have hne2 : ¬ (attempt + 1 = maxAttempts) := hne
      have hrun2 : runTasks c (attempt + 1) now
          { planner := st1, task_input := input, previous_attempts := prev,
            results := [], trace := instr.trace,
            allResults := instr.allResults } tasks = (ls, some s) := hrun
      have ih2 : (attemptLoop c now remaining (attempt + 1) ls.planner
          ls.task_input ls.previous_attempts
          { trace := ls.trace, planCalls := instr.planCalls + 1,
            allResults := ls.allResults }).2.2.planCalls ≤
          instr.planCalls + 1 + remaining := ih
      simp only [attemptLoop, hc, hrun2]
      rw [if_neg hne2]
      omega
  | case6 remaining attempt st input prev instr attempt' instr1 st1 tasks hc ls hall hrun =>
      have hrun2 : runTasks c (attempt + 1) now
          { planner := st1, task_input := input, previous_attempts := prev,
            results := [], trace := instr.trace,
            allResults := instr.allResults } tasks = (ls, none) := hrun
      simp only [attemptLoop, hc, hrun2, hall, if_true]
      exact show instr.planCalls + 1 ≤ instr.planCalls + (remaining + 1) by omega
  | case7 remaining attempt st input prev instr attempt' instr1 st1 tasks hc ls instr2 hnall hrun ih =>
      have hrun2 : runTasks c (attempt + 1) now
          { planner := st1, task_input := input, previous_attempts := prev,
            results := [], trace := instr.trace,
            allResults := instr.allResults } tasks = (ls, none) := hrun
      have hfalse : allPassed ls.results = false := by
        cases hx : allPassed ls.results
        · rfl
        · exact absurd hx hnall
      have ih2 : (attemptLoop c now remaining (attempt + 1) ls.planner
          ls.task_input ls.previous_attempts
          { trace := ls.trace, planCalls := instr.planCalls + 1,
            allResults := ls.allResults }).2.2.planCalls ≤
          instr.planCalls + 1 + remaining := ih
      simp only [attemptLoop, hc, hrun2, hfalse, Bool.false_eq_true, if_false]
      omega

/-- The exhausted result always reports `max_attempts = 3` attempts. -/
theorem attemptLoop_exhausted_eq (c : Collab) (now : Nat) :
    ∀ (remaining attempt : Nat) (st : PlannerState) (input : String)
      (prev : List AttemptRecord) (instr : Instr)
      (a : Nat) (pa : List AttemptRecord),
      (attemptLoop c now remaining attempt st input prev instr).1 =
        ExecOutcome.exhausted a pa → a = 3 := by
  intro remaining attempt st input prev instr
  induction remaining, attempt, st, input, prev, instr
    using attemptLoop.induct c now with
  | case1 x st x1 prev instr =>
      intro a pa h
      simp only [attemptLoop, ExecOutcome.exhausted.injEq] at h
      rw [← h.1]
      rfl
  | case2 remaining attempt st input prev instr attempt' e hc hat =>
      intro a pa h
      have hat2 : attempt + 1 = maxAttempts := hat
      simp only [attemptLoop, hc] at h
      rw [if_pos hat2] at h
      exact ExecOutcome.noConfusion h
  | case3 remaining attempt st input prev instr attempt' instr1 e hc hne ih =>
      intro a pa h
      have hne2 : ¬ (attempt + 1 = maxAttempts) := hne
      have ih2 : ∀ (a : Nat) (pa : List AttemptRecord),
          (attemptLoop c now remaining (attempt + 1) st input prev
            { trace := instr.trace, planCalls := instr.planCalls + 1,
              allResults := instr.allResults }).1 =
            ExecOutcome.exhausted a pa → a = 3 := ih
      simp only [attemptLoop, hc] at h
      rw [if_neg hne2] at h
      exact ih2 a pa h
  | case4 remaining attempt st input prev instr attempt' instr1 st1 tasks hc ls s hat hrun =>
      intro a pa h
      have hat2 : attempt + 1 = maxAttempts := hat
      have hrun2 : runTasks c (attempt + 1) now
          { planner := st1, task_input := input, previous_attempts := prev,
            results := [], trace := instr.trace,
            allResults := instr.allResults } tasks = (ls, some s) := hrun
      simp only [attemptLoop, hc, hrun2] at h
      rw [if_pos hat2] at h
      exact ExecOutcome.noConfusion h
  | case5 remaining attempt st input prev instr attempt' instr1 st1 tasks hc ls instr2 s hne hrun ih =>
      intro a pa h
      have hne2 : ¬ (attempt + 1 = maxAttempts) := hne
      have hrun2 : runTasks c (attempt + 1) now
          { planner := st1, task_input := input, previous_attempts := prev,
            results := [], trace := instr.trace,
            allResults := instr.allResults } tasks = (ls, some s) := hrun
      have ih2 : ∀ (a : Nat) (pa : List AttemptRecord),
          (attemptLoop c now remaining (attempt + 1) ls.planner ls.task_input
            ls.previous_attempts
            { trace := ls.trace, planCalls := instr.planCalls + 1,
              allResults := ls.allResults }).1 =
            ExecOutcome.exhausted a pa → a = 3 := ih
      simp only [attemptLoop, hc, hrun2] at h
      rw [if_neg hne2] at h
      exact ih2 a pa h
  | case6 remaining attempt st input prev instr attempt' instr1 st1 tasks hc ls hall hrun =>
      intro a pa h
      have hrun2 : runTasks c (attempt + 1) now
          { planner := st1, task_input := input, previous_attempts := prev,
            results := [], trace := instr.trace,
            allResults := instr.allResults } tasks = (ls, none) := hrun
      simp only [attemptLoop, hc, hrun2, hall, if_true] at h
      exact ExecOutcome.noConfusion h
  | case7 remaining attempt st input prev instr attempt' instr1 st1 tasks hc ls instr2 hnall hrun ih =>
      intro a pa h
      have hrun2 : runTasks c (attempt + 1) now
          { planner := st1, task_input := input, previous_attempts := prev,
            results := [], trace := instr.trace,
            allResults := instr.allResults } tasks = (ls, none) := hrun
      have hfalse : allPassed ls.results = false := by
        cases hx : allPassed ls.results
        · rfl
        · exact absurd hx hnall
      have ih2 : ∀ (a : Nat) (pa : List AttemptRecord),
          (attemptLoop c now remaining (attempt + 1) ls.planner ls.task_input
            ls.previous_attempts
            { trace := ls.trace, planCalls := instr.planCalls + 1,
              allResults := ls.allResults }).1 =
            ExecOutcome.exhausted a pa → a = 3 := ih
      simp only [attemptLoop, hc, hrun2, hfalse, Bool.false_eq_true,
        if_false] at h
      exact ih2 a pa h

/-- A collaborator whose critique engine raises when called on a result
dict (the controller-side review at `agent.py:140`), while the
orchestrator-side review returns score 0. -/
def reviewBoomCollab : Collab :=
  { okCollab with
    review_solution := fun arg =>
      match arg with
      | .ofAnalysis _ _ => .ok { overall_score := some 0 }
      | .ofResult _ _ => .error "review boom" }

/-- C6 counterexample: a run in which every attempt fails (all collected
outcomes score 0 < 0.7) yet the controller returns the error result of
`agent.py:187-191` — not an exhausted-attempts result, and with no attempt
history at all. -/
theorem c6_counterexample :
    (execute_task reviewBoomCollab "obj" 0 PlannerState.init).1 =
      ExecOutcome.error "review boom" 3 ∧
    (execute_task reviewBoomCollab "obj" 0 PlannerState.init).2.2.allResults.map
        (fun r => r.review.score) = [0, 0, 0] := by
  constructor
  · decide
  · decide

/-- Observation of an exhausted outcome: attempts, and each history
entry's attempt number, review score and suggestions. -/
def exhaustedInfo :
    ExecOutcome → Option (Nat × List Nat × List ℚ × List (List String))
  | .exhausted a pa =>
      some (a, pa.map (fun ar => ar.attempt),
            pa.map (fun ar => ar.review.score),
            pa.map (fun ar => ar.improvement_suggestions))
  | _ => none

/-- Collaborator decomposing into A (scores 0.9) and B (depends on A,
scores 0.5 with one suggestion). -/
def mixCollab : Collab :=
  { okCollab with
    plan := fun _ => .ok (.entries
      [{ title := some "A", description := some "dA", priority := some "HIGH" },
       { title := some "B", description := some "dB", priority := some "HIGH",
         dependencies := some ["A"] }]),
    analyze_system := fun desc _ => .ok desc,
    review_solution := fun arg =>
      match arg with
      | .ofAnalysis a _ =>
          if a.base = "dA" then .ok { overall_score := some (mkRat 9 10) }
          else .ok { overall_score := some (mkRat 5 10) }
      | .ofResult r _ =>
          if r.analysis.base = "dA" then
            .ok { overall_score := some (mkRat 9 10) }
          else
            .ok { overall_score := some (mkRat 5 10),
                  improvement_suggestions := some ["improve B"] } }

/-- C6 amended: for `max_attempts = 3` the controller invokes the
planner's decomposition at most 3 times, and an exhausted result always
reports 3 attempts; but `previous_attempts` holds one entry per task that
failed the per-task 0.7 review check — each with that task's single
outcome, review and suggestions — rather than per-attempt records of all
outcomes (in the concrete mixed run, tasks that passed the per-task check
contribute nothing). -/
theorem c6_attempt_bound_and_history :
    (∀ (c : Collab) (input : String) (now : Nat) (st : PlannerState),
      (execute_task c input now st).2.2.planCalls ≤ 3) ∧
    (∀ (c : Collab) (input : String) (now : Nat) (st : PlannerState)
        (a : Nat) (pa : List AttemptRecord),
      (execute_task c input now st).1 = ExecOutcome.exhausted a pa → a = 3) ∧
    exhaustedInfo (execute_task mixCollab "obj" 0 PlannerState.init).1 =
      some (3, [1, 2, 3], [mkRat 5 10, mkRat 5 10, mkRat 5 10],
            [["improve B"], ["improve B"], ["improve B"]]) := by
  refine ⟨?_, ?_, by decide⟩
  · intro c input now st
    have h := attemptLoop_planCalls_le c now maxAttempts 0 st input [] {}
    simpa [execute_task] using h
  · intro c input now st a pa h
    exact attemptLoop_exhausted_eq c now maxAttempts 0 st input [] {} a pa h

/-- Witness for C6 at concrete runs, discharging the exhausted-result
hypothesis. -/
theorem c6_witness :
    (execute_task okCollab "objective" 0 PlannerState.init).2.2.planCalls ≤ 3 ∧
    (execute_task okCollab "objective" 0 PlannerState.init).1 =
      ExecOutcome.exhausted 3 [] ∧ (3 : Nat) = 3 :=
  ⟨c6_attempt_bound_and_history.1 okCollab "objective" 0 PlannerState.init,
   by decide,
   c6_attempt_bound_and_history.2.1 okCollab "objective" 0 PlannerState.init
     3 [] (by decide)⟩


/-! ## C8 — duplicate ids are silently replaced -/

/-- State after a first fallback plan creation on a fresh planner. -/
def c8st1 : PlannerState := (fallbackPlan PlannerState.init "objective one" 0).1

/-- State after a second fallback plan creation on `c8st1`. -/
def c8st2 : PlannerState := (fallbackPlan c8st1 "objective two" 0).1

/-- C8 counterexample: two consecutive plan creations that both fall back
to the default task succeed without any error, and the second silently
replaces the stored task with id `task_0` (its description changes and the
graph still holds exactly one task) — there is no `DuplicateIdError` and
the graph does not stay unchanged. -/
theorem c8_counterexample :
    create_project_plan PlannerState.init (.ok .failure) "objective one" 0 =
      .ok (c8st1, [defaultTask "objective one" 0]) ∧
    (dictGet c8st1.tasks "task_0").map Task.description = some "objective one" ∧
    create_project_plan c8st1 (.ok .failure) "objective two" 0 =
      .ok (c8st2, [defaultTask "objective two" 0]) ∧
    (dictGet c8st2.tasks "task_0").map Task.description = some "objective two" ∧
    c8st2.tasks.length = 1 ∧
    c8st1 ≠ c8st2 := by
  refine ⟨rfl, by decide, rfl, by decide, by decide, by decide⟩

/-- C8 amended: the graph's store operation (`self.tasks[task.id] = task`)
never fails: it replaces the value at an existing key in place (leaving
the size unchanged) and leaves every other key untouched; the fallback
path always stores under the fixed id `task_0`, so a later fallback
overwrites an earlier fallback task. -/
theorem c8_silent_replacement :
    (∀ (d : PyDict Task) (k : String) (v : Task),
      dictGet (dictSet d k v) k = some v ∧
      (∀ k', k' ≠ k → dictGet (dictSet d k v) k' = dictGet d k') ∧
      (dictSet d k v).length =
        if (dictGet d k).isSome then d.length else d.length + 1) ∧
    (∀ (st : PlannerState) (obj : String) (now : Nat),
      (fallbackPlan st obj now).2 = [defaultTask obj now] ∧
      dictGet (fallbackPlan st obj now).1.tasks "task_0" =
        some (defaultTask obj now)) := by
  constructor
  · intro d k v
    exact ⟨dictGet_dictSet_self d k v,
      fun k' h => dictGet_dictSet_ne d k k' v h,
      length_dictSet d k v⟩
  · intro st obj now
    exact ⟨rfl, dictGet_dictSet_self st.tasks "task_0" (defaultTask obj now)⟩

/-- Witness for C8's amended statement at a concrete key. -/
theorem c8_witness :
    ("x" : String) ≠ "task_0" ∧
    dictGet (dictSet ([] : PyDict Task) "task_0" (defaultTask "o" 0)) "x" =
      dictGet ([] : PyDict Task) "x" :=
  ⟨by decide,
   (c8_silent_replacement.1 [] "task_0" (defaultTask "o" 0)).2.1 "x"
     (by decide)⟩

end AEA
